import Mathlib

/-!
Shallow embedding of the global-handle lifecycle core of a QuickJS wrapper:
`src/utils/global.rs` (`GlobalHolder` / `Global` / `Ref`), the Runtime glue
in `src/lib.rs` (`new_global_value`, `new_global_context`,
`new_global_atom`, `GlobalValue::to_local`, `Drop for Runtime`) and the
tagged value model in `src/value.rs` (`Value`, `RefValue`,
`from_raw` / `as_raw` / `into_raw`).

Machine pointers (`JSRuntime*`, `JSContext*`, heap pointers, atoms) are
modelled as natural-number identities.  Engine reference counting stays
implicit except where a claim is about release calls; those are made
explicit as event lists returned by the embedded operations.  Atomics are
modelled as plain state: the embedding is sequential, matching the
single-writer discipline the source documents for holder mutation.
-/

namespace QuickjsModel

/-- One entry of `GlobalHolder.records` (`struct Record<V>` in
`src/utils/global.rs`): the stored owning copy of the promoted value
(`none` once taken by a sweep) and the identity of the `Arc<Ref>` liveness
token it weakly observes. -/
structure Record (V : Type) where
  value : Option V
  refsId : Nat
deriving DecidableEq, Repr

/-- State of one `GlobalHolder<V>` together with the strong counts of the
liveness tokens (`Arc<Ref>`) held by the issued `Global` handles:
`strong i` is the number of live clones of token `i`, `next` the next
fresh token id.  `runtime` and `dirty` model the shared
`Shared { runtime, dirty }` cell. -/
structure GlobalHolder (V : Type) where
  runtime : Nat
  dirty : Bool
  records : List (Record V)
  strong : Nat → Nat
  next : Nat

/-- A `Global<T>` handle: the id of its `Arc<Ref>` liveness token, the
runtime identity recorded in the shared cell at promotion, and the direct
clone of the promoted value it carries. -/
structure Global (V : Type) where
  refId : Nat
  runtime : Nat
  value : V
deriving DecidableEq, Repr

variable {V : Type}

/-- `GlobalHolder::new`: empty record list, `dirty` initialised to
`false`, no liveness token issued yet. -/
def GlobalHolder.new (rt : Nat) : GlobalHolder V :=
  { runtime := rt, dirty := false, records := [], strong := fun _ => 0, next := 0 }

/-- `GlobalHolder::push`: allocate a fresh liveness token with one strong
holder (`Arc::new`), append a record storing a clone of the value and
weakly observing the token (`Arc::downgrade`), and return the `Global`
built from the token and the value.  No release call happens here. -/
def GlobalHolder.push (s : GlobalHolder V) (v : V) : GlobalHolder V × Global V :=
  ({ s with
      records := s.records ++ [{ value := some v, refsId := s.next }],
      strong := fun j => if j = s.next then 1 else s.strong j,
      next := s.next + 1 },
   { refId := s.next, runtime := s.runtime, value := v })

/-- Cloning a `Global` handle (`#[derive(Clone)]` on `Global<T>`): one more
strong holder of its token; the holder's records are untouched. -/
def GlobalHolder.cloneGlobal (s : GlobalHolder V) (id : Nat) : GlobalHolder V :=
  { s with strong := fun j => if j = id then s.strong id + 1 else s.strong j }

/-- Dropping one `Global` handle: the strong count of its token drops by
one; when the last clone goes, `Ref`'s destructor runs, whose whole body is
`self.shared.dirty.store(true, Ordering::Relaxed)`.  The returned list
holds the engine release calls made on this path: there are none. -/
def GlobalHolder.dropGlobal (s : GlobalHolder V) (id : Nat) : GlobalHolder V × List V :=
  if s.strong id = 1 then
    ({ s with
        dirty := true,
        strong := fun j => if j = id then s.strong id - 1 else s.strong j }, [])
  else
    ({ s with
        strong := fun j => if j = id then s.strong id - 1 else s.strong j }, [])

/-- `GlobalHolder::cleanup`: swap `dirty` to `false`; if it had been set,
retain exactly the records whose token still has a strong holder
(`refs.strong_count() > 0`) and invoke the registered release function on
each dead record's stored value (`value.take()`).  Returns the new state
and the released values in traversal order. -/
def GlobalHolder.cleanup (s : GlobalHolder V) : GlobalHolder V × List V :=
  if s.dirty then
    ({ s with
        dirty := false,
        records := s.records.filter (fun r => decide (0 < s.strong r.refsId)) },
     (s.records.filter (fun r => decide (s.strong r.refsId = 0))).filterMap
       (fun r => r.value))
  else
    ({ s with dirty := false }, [])

/-- `Drop for GlobalHolder`: every record still holding a value is passed
to the release function, in order (`std::mem::take(&mut self.records)`
followed by the loop). -/
def GlobalHolder.dropFrees (s : GlobalHolder V) : List V :=
  s.records.filterMap (fun r => r.value)

/-- `Global::get`: compare the runtime identity recorded at promotion with
the one presented; on match clone the carried value, otherwise `None`. -/
def Global.get (g : Global V) (rt : Nat) : Option V :=
  if g.runtime = rt then some g.value else none

/-- Engine-level events emitted by `Drop for Runtime`: a release-function
call on one still-registered record, or `JS_FreeRuntime` itself. -/
inductive TeardownEvent (V : Type) where
  | release (v : V)
  | freeRuntime
deriving DecidableEq, Repr

/-- Whether a teardown event is a release-function call. -/
def TeardownEvent.isRelease : TeardownEvent V → Bool
  | .release _ => true
  | .freeRuntime => false

/-- `Drop for Runtime` (`src/lib.rs`): overwriting the store with
`RuntimeStore::Destroying` drops the old `Running` variant, which runs
`Drop for GlobalHolder` on `global_contexts`, `global_refs` and
`global_atoms` in field order (`class_ids` holds no engine resource); only
then is `JS_FreeRuntime` called, and finally the store box is reclaimed. -/
def runtimeDropEvents (ctxs refs atoms : GlobalHolder V) : List (TeardownEvent V) :=
  ctxs.dropFrees.map .release ++ refs.dropFrees.map .release
    ++ atoms.dropFrees.map .release ++ [.freeRuntime]

/-- Iterated promotion. -/
def pushAll (s : GlobalHolder V) (vs : List V) : GlobalHolder V :=
  vs.foldl (fun t v => (t.push v).1) s

/-- Iterated handle dropping. -/
def dropAll (s : GlobalHolder V) (ids : List Nat) : GlobalHolder V :=
  ids.foldl (fun t i => (t.dropGlobal i).1) s

/-- `n` promotions of the distinct values `0 … n-1` into a fresh holder,
each returning a distinct uncloned handle (token `i` for value `i`). -/
def scenario (rt n : Nat) : GlobalHolder Nat :=
  pushAll (GlobalHolder.new rt) (List.range n)

/-- Closed form of the holder state after `scenario rt n` followed by
dropping the (distinct) handles listed in `dead`. -/
def afterDrops (rt n : Nat) (dead : List Nat) : GlobalHolder Nat :=
  { runtime := rt
    dirty := !dead.isEmpty
    records := (List.range n).map (fun i => { value := some i, refsId := i })
    strong := fun j => if j < n ∧ j ∉ dead then 1 else 0
    next := n }

/-! ### Tagged values (`src/value.rs`)

The tag constants come from the `rquickjs-sys` bindings of the embedded
engine (quickjs-ng ABI), which are not part of the verified sources; the
claims depend only on the tags being pairwise distinct. -/

def JS_TAG_BIG_INT : Int := -9

def JS_TAG_SYMBOL : Int := -8

def JS_TAG_STRING : Int := -7

def JS_TAG_MODULE : Int := -3

def JS_TAG_FUNCTION_BYTECODE : Int := -2

def JS_TAG_OBJECT : Int := -1

def JS_TAG_INT : Int := 0

def JS_TAG_BOOL : Int := 1

def JS_TAG_NULL : Int := 2

def JS_TAG_UNDEFINED : Int := 3

def JS_TAG_UNINITIALIZED : Int := 4

def JS_TAG_CATCH_OFFSET : Int := 5

def JS_TAG_EXCEPTION : Int := 6

def JS_TAG_FLOAT64 : Int := 7

/-- The fourteen tags `Value::from_raw` recognises. -/
def recognizedTags : List Int :=
  [JS_TAG_BIG_INT, JS_TAG_SYMBOL, JS_TAG_STRING, JS_TAG_MODULE,
   JS_TAG_FUNCTION_BYTECODE, JS_TAG_OBJECT, JS_TAG_INT, JS_TAG_BOOL,
   JS_TAG_NULL, JS_TAG_UNDEFINED, JS_TAG_UNINITIALIZED,
   JS_TAG_CATCH_OFFSET, JS_TAG_EXCEPTION, JS_TAG_FLOAT64]

/-- A raw engine `JSValue`: the tag and the `JSValueUnion` payload.  The C
union is split into one field per view; each constructor of a raw value
fills the view it writes and zeroes the others, and `from_raw` only ever
reads the view selected by the tag, so no punning is needed.  The `f64`
payload is kept as an uninterpreted bit pattern. -/
structure JSValue where
  tag : Int
  ptr : Nat
  int32 : Int
  float64 : Nat
deriving DecidableEq, Repr

/-- `JS_MKPTR`. -/
def mkPtr (tag : Int) (p : Nat) : JSValue :=
  { tag := tag, ptr := p, int32 := 0, float64 := 0 }

/-- `JS_MKVAL`. -/
def mkVal (tag : Int) (v : Int) : JSValue :=
  { tag := tag, ptr := 0, int32 := v, float64 := 0 }

/-- `JS_NewFloat64` on an `f64` bit pattern.  (The engine may canonicalise
integral doubles to `JS_TAG_INT`; none of the verified claims depends on
that, so the payload is kept opaque and the tag is `JS_TAG_FLOAT64`.) -/
def newFloat64 (bits : Nat) : JSValue :=
  { tag := JS_TAG_FLOAT64, ptr := 0, int32 := 0, float64 := bits }

/-- `JS_NULL`. -/
def JS_NULL : JSValue := mkVal JS_TAG_NULL 0

/-- `JS_UNDEFINED`. -/
def JS_UNDEFINED : JSValue := mkVal JS_TAG_UNDEFINED 0

/-- `JS_UNINITIALIZED`. -/
def JS_UNINITIALIZED : JSValue := mkVal JS_TAG_UNINITIALIZED 0

/-- The unit error of `Value::from_raw` (`pub struct Exception;`). -/
inductive Exception where
  | mk
deriving DecidableEq, Repr

/-- The recoverable cross-runtime error (`pub struct InvalidRuntime;`). -/
inductive InvalidRuntime where
  | mk
deriving DecidableEq, Repr

/-- Outcome of an operation that may hit a Rust `panic!` / failed
`assert!` / `.unwrap()`: either the abort (message dropped) or a normal
result. -/
inductive PanicOr (α : Type) where
  | fatal
  | ok (a : α)
deriving DecidableEq, Repr

/-- The `Value<'rt>` enum: six reference-counted variants
(`RefValue<'rt, TAG>` wraps the owning runtime identity and the heap
pointer) and seven plain-value variants. -/
inductive Value where
  | bigInt (rt : Nat) (ptr : Nat)
  | symbol (rt : Nat) (ptr : Nat)
  | string (rt : Nat) (ptr : Nat)
  | module (rt : Nat) (ptr : Nat)
  | functionByteCode (rt : Nat) (ptr : Nat)
  | object (rt : Nat) (ptr : Nat)
  | int32 (v : Int)
  | bool (b : Bool)
  | null
  | undefined
  | uninitialized
  | catchOffset (v : Int)
  | float64 (bits : Nat)
deriving DecidableEq, Repr

/-- `Value::get_runtime`: the owning runtime identity of the six
reference-counted variants; plain-value variants have none. -/
def Value.getRuntime : Value → Option Nat
  | .bigInt rt _ => some rt
  | .symbol rt _ => some rt
  | .string rt _ => some rt
  | .module rt _ => some rt
  | .functionByteCode rt _ => some rt
  | .object rt _ => some rt
  | _ => none

/-- `Value::from_raw`: classify the raw value by tag, in the source's arm
order; the exception tag is reported as `Err(Exception)`, an unknown tag is
`panic!("unknown tag {}")`. -/
def Value.fromRaw (rt : Nat) (value : JSValue) : PanicOr (Except Exception Value) :=
  if value.tag = JS_TAG_BIG_INT then .ok (.ok (.bigInt rt value.ptr))
  else if value.tag = JS_TAG_SYMBOL then .ok (.ok (.symbol rt value.ptr))
  else if value.tag = JS_TAG_STRING then .ok (.ok (.string rt value.ptr))
  else if value.tag = JS_TAG_MODULE then .ok (.ok (.module rt value.ptr))
  else if value.tag = JS_TAG_FUNCTION_BYTECODE then
    .ok (.ok (.functionByteCode rt value.ptr))
  else if value.tag = JS_TAG_OBJECT then .ok (.ok (.object rt value.ptr))
  else if value.tag = JS_TAG_INT then .ok (.ok (.int32 value.int32))
  else if value.tag = JS_TAG_BOOL then .ok (.ok (.bool (value.int32 != 0)))
  else if value.tag = JS_TAG_NULL then .ok (.ok .null)
  else if value.tag = JS_TAG_UNDEFINED then .ok (.ok .undefined)
  else if value.tag = JS_TAG_UNINITIALIZED then .ok (.ok .uninitialized)
  else if value.tag = JS_TAG_CATCH_OFFSET then .ok (.ok (.catchOffset value.int32))
  else if value.tag = JS_TAG_FLOAT64 then .ok (.ok (.float64 value.float64))
  else if value.tag = JS_TAG_EXCEPTION then .ok (.error .mk)
  else .fatal

/-- `Value::as_raw`: the borrowing view; no ownership transfer, no release. -/
def Value.asRaw : Value → JSValue
  | .bigInt _ p => mkPtr JS_TAG_BIG_INT p
  | .symbol _ p => mkPtr JS_TAG_SYMBOL p
  | .string _ p => mkPtr JS_TAG_STRING p
  | .module _ p => mkPtr JS_TAG_MODULE p
  | .functionByteCode _ p => mkPtr JS_TAG_FUNCTION_BYTECODE p
  | .object _ p => mkPtr JS_TAG_OBJECT p
  | .int32 v => mkVal JS_TAG_INT v
  | .bool b => mkVal JS_TAG_BOOL (if b then 1 else 0)
  | .null => JS_NULL
  | .undefined => JS_UNDEFINED
  | .uninitialized => JS_UNINITIALIZED
  | .catchOffset v => mkVal JS_TAG_CATCH_OFFSET v
  | .float64 bits => newFloat64 bits

/-- One `JS_FreeValueRT(rt, JS_MKPTR(tag, ptr))` call performed by
`Drop for RefValue`. -/
structure ReleaseCall where
  rt : Nat
  tag : Int
  ptr : Nat
deriving DecidableEq, Repr

/-- `Value::into_raw`: the returned raw value, paired with the engine
release calls the body performs.  The `String`, `Module`,
`FunctionByteCode` and `Object` arms pass the `RefValue` through
`detach_ptr`, which `std::mem::forget`s it, so its destructor never runs.
The `BigInt` and `Symbol` arms read `v.ptr` directly and let `v` go out of
scope, so Rust runs `Drop for RefValue` at the end of the arm — one
`JS_FreeValueRT` call on the value being returned. -/
def Value.intoRaw : Value → JSValue × List ReleaseCall
  | .bigInt rt p => (mkPtr JS_TAG_BIG_INT p, [{ rt := rt, tag := JS_TAG_BIG_INT, ptr := p }])
  | .symbol rt p => (mkPtr JS_TAG_SYMBOL p, [{ rt := rt, tag := JS_TAG_SYMBOL, ptr := p }])
  | .string _ p => (mkPtr JS_TAG_STRING p, [])
  | .module _ p => (mkPtr JS_TAG_MODULE p, [])
  | .functionByteCode _ p => (mkPtr JS_TAG_FUNCTION_BYTECODE p, [])
  | .object _ p => (mkPtr JS_TAG_OBJECT p, [])
  | .int32 v => (mkVal JS_TAG_INT v, [])
  | .bool b => (mkVal JS_TAG_BOOL (if b then 1 else 0), [])
  | .null => (JS_NULL, [])
  | .undefined => (JS_UNDEFINED, [])
  | .uninitialized => (JS_UNINITIALIZED, [])
  | .catchOffset v => (mkVal JS_TAG_CATCH_OFFSET v, [])
  | .float64 bits => (newFloat64 bits, [])

/-! ### Runtime glue (`src/lib.rs`) -/

/-- `JS_DupValueRT` increments the reference count and hands back the same
tagged value. -/
def dupValueRT (_rt : Nat) (v : JSValue) : JSValue := v

/-- `JS_DupAtom` increments the atom's reference count and hands back the
same raw atom. -/
def dupAtom (a : Nat) : Nat := a

/-- `JS_DupContext` increments the context's reference count and hands
back the same pointer. -/
def dupContext (c : Nat) : Nat := c

/-- One holder's slice of `RuntimeStore`: either `Running` with its
`GlobalHolder`, or `Destroying` (set by `Drop for Runtime`). -/
inductive RuntimeStore (V : Type) where
  | running (holder : GlobalHolder V)
  | destroying

/-- `Runtime::new_global_value`: reject a value owned by a different
runtime with `InvalidRuntime`; otherwise a `Destroying` store is
`panic!("runtime destroying")`, and a `Running` store registers
`JS_DupValueRT(self, value.as_raw())` in `global_refs`, returning the new
store and the issued handle. -/
def Runtime.newGlobalValue (selfRt : Nat) (store : RuntimeStore JSValue) (v : Value) :
    PanicOr (Except InvalidRuntime (RuntimeStore JSValue × Global JSValue)) :=
  if (match v.getRuntime with
      | some rt => rt != selfRt
      | none => false) then
    .ok (.error .mk)
  else
    match store with
    | .destroying => .fatal
    | .running refs =>
        let pr := refs.push (dupValueRT selfRt v.asRaw)
        .ok (.ok (.running pr.1, pr.2))

/-- `Runtime::new_global_context`: reject a context drawn from a different
runtime with `InvalidRuntime`; otherwise a `Destroying` store is
`panic!("runtime destroying")`, and a `Running` store registers
`JS_DupContext(ctx)` in `global_contexts`. -/
def Runtime.newGlobalContext (selfRt : Nat) (store : RuntimeStore Nat)
    (ctxRt ctxPtr : Nat) :
    PanicOr (Except InvalidRuntime (RuntimeStore Nat × Global Nat)) :=
  if selfRt != ctxRt then
    .ok (.error .mk)
  else
    match store with
    | .destroying => .fatal
    | .running g =>
        let pr := g.push (dupContext ctxPtr)
        .ok (.ok (.running pr.1, pr.2))

/-- `Context::new_global_atom`: `enforce_atom_in_same_runtime` asserts the
atom's runtime is this context's runtime (a panic, not an `Err`); then a
`Destroying` store is `panic!("runtime destroying")`, and a `Running` store
registers `JS_DupAtom(atom)` in `global_atoms`. -/
def Context.newGlobalAtom (ctxRt : Nat) (store : RuntimeStore Nat)
    (atomRt atomRaw : Nat) :
    PanicOr (RuntimeStore Nat × Global Nat) :=
  if atomRt != ctxRt then
    .fatal
  else
    match store with
    | .destroying => .fatal
    | .running g =>
        let pr := g.push (dupAtom atomRaw)
        .ok (.running pr.1, pr.2)

/-- `GlobalValue::to_local`: resolve the handle through `Global::get`
against the presented runtime; `None` becomes `Err(InvalidRuntime)`, a hit
is duplicated (`JS_DupValueRT`) and rebuilt with `Value::from_raw`, whose
result is `.unwrap()`ed (a panic when the stored raw were an exception or
an unknown tag — unreachable through the promotion API). -/
def GlobalValue.toLocal (g : Global JSValue) (rt : Nat) :
    PanicOr (Except InvalidRuntime Value) :=
  match g.get rt with
  | none => .ok (.error .mk)
  | some v =>
      match Value.fromRaw rt (dupValueRT rt v) with
      | .fatal => .fatal
      | .ok (.error _) => .fatal
      | .ok (.ok val) => .ok (.ok val)

/-! ### Structural lemmas -/

lemma GlobalHolder.extEq {a b : GlobalHolder V} (h1 : a.runtime = b.runtime)
    (h2 : a.dirty = b.dirty) (h3 : a.records = b.records)
    (h4 : ∀ j, a.strong j = b.strong j) (h5 : a.next = b.next) : a = b := by
  cases a
  cases b
  simp only [GlobalHolder.mk.injEq]
  exact ⟨h1, h2, h3, funext h4, h5⟩

lemma scenario_succ (rt n : Nat) :
    scenario rt (n + 1) = ((scenario rt n).push n).1 := by
  unfold scenario pushAll
  rw [List.range_succ, List.foldl_append]
  rfl

lemma scenario_eq (rt n : Nat) : scenario rt n = afterDrops rt n [] := by
  induction n with
  | zero =>
      apply GlobalHolder.extEq (V := Nat) <;> first
        | rfl
        | · intro j
            show (0 : Nat) = if j < 0 ∧ j ∉ ([] : List Nat) then 1 else 0
            simp
  | succ n ih =>
      rw [scenario_succ, ih]
      apply GlobalHolder.extEq
      · rfl
      · rfl
      · show (List.range n).map (fun i => ({ value := some i, refsId := i } : Record Nat))
              ++ [{ value := some n, refsId := n }]
            = (List.range (n + 1)).map (fun i => { value := some i, refsId := i })
        rw [List.range_succ, List.map_append]
        rfl
      · intro j
        show (if j = n then 1 else if j < n ∧ j ∉ ([] : List Nat) then 1 else 0)
            = if j < n + 1 ∧ j ∉ ([] : List Nat) then 1 else 0
        by_cases hj : j = n
        · subst hj
          simp
        · by_cases h2 : j < n
          · have h3 : j < n + 1 := by omega
            simp [hj, h2, h3]
          · have h3 : ¬ j < n + 1 := by omega
            simp [hj, h2, h3]
      · rfl

lemma dropGlobal_afterDrops (rt n d : Nat) (dead : List Nat) (hd : d < n)
    (hnotin : d ∉ dead) :
    ((afterDrops rt n dead).dropGlobal d).1 = afterDrops rt n (dead ++ [d]) := by
  have hc : (afterDrops rt n dead).strong d = 1 := by
    show (if d < n ∧ d ∉ dead then 1 else 0) = 1
    simp [hd, hnotin]
  simp only [GlobalHolder.dropGlobal, hc, if_pos]
  apply GlobalHolder.extEq
  · rfl
  · show true = !(dead ++ [d]).isEmpty
    cases dead <;> rfl
  · rfl
  · intro j
    show (if j = d then 1 - 1 else (afterDrops rt n dead).strong j)
        = if j < n ∧ j ∉ dead ++ [d] then 1 else 0
    by_cases hj : j = d
    · subst hj
      simp
    · rw [if_neg hj]
      show (if j < n ∧ j ∉ dead then 1 else 0) = _
      simp only [List.mem_append, List.mem_singleton, hj, or_false]
  · rfl

lemma dropAll_afterDrops (rt n : Nat) (dead ds : List Nat) (hnd : ds.Nodup)
    (hlt : ∀ i ∈ ds, i < n) (hdisj : ∀ i ∈ ds, i ∉ dead) :
    dropAll (afterDrops rt n dead) ds = afterDrops rt n (dead ++ ds) := by
  induction ds generalizing dead with
  | nil => simp [dropAll]
  | cons d ds ih =>
      have h1 : d < n := hlt d (List.mem_cons_self d ds)
      have h2 : d ∉ dead := hdisj d (List.mem_cons_self d ds)
      show dropAll ((afterDrops rt n dead).dropGlobal d).1 ds = _
      rw [dropGlobal_afterDrops rt n d dead h1 h2]
      rw [ih (dead ++ [d]) (List.Nodup.of_cons hnd)
        (fun i hi => hlt i (List.mem_cons_of_mem d hi))
        (fun i hi => by
          simp only [List.mem_append, List.mem_singleton, not_or]
          exact ⟨hdisj i (List.mem_cons_of_mem d hi),
            fun h => (List.nodup_cons.1 hnd).1 (h ▸ hi)⟩)]
      rw [List.append_assoc]
      rfl

lemma dropAll_records (s : GlobalHolder V) (ids : List Nat) :
    (dropAll s ids).records = s.records := by
  induction ids generalizing s with
  | nil => rfl
  | cons i is ih =>
      show (dropAll (s.dropGlobal i).1 is).records = s.records
      rw [ih]
      unfold GlobalHolder.dropGlobal
      split <;> rfl

lemma length_filter_not_mem (n : Nat) (ds : List Nat) (hnd : ds.Nodup)
    (hlt : ∀ i ∈ ds, i < n) :
    ((List.range n).filter (fun i => decide (i ∉ ds))).length = n - ds.length := by
  induction ds with
  | nil => simp
  | cons d ds ih =>
      have hrw : (List.range n).filter (fun i => decide (i ∉ d :: ds))
          = ((List.range n).filter (fun i => decide (i ∉ ds))).filter
              (fun i => decide (i ≠ d)) := by
        rw [List.filter_filter]
        apply List.filter_congr
        intro i _
        by_cases h1 : i = d <;> by_cases h2 : i ∈ ds <;> simp [h1, h2]
      have hL : ((List.range n).filter (fun i => decide (i ∉ ds))).Nodup :=
        (List.nodup_range n).filter _
      have hdL : d ∈ (List.range n).filter (fun i => decide (i ∉ ds)) := by
        rw [List.mem_filter]
        exact ⟨List.mem_range.2 (hlt d (List.mem_cons_self d ds)),
          by simpa using (List.nodup_cons.1 hnd).1⟩
      have herase : ((List.range n).filter (fun i => decide (i ∉ ds))).filter
            (fun i => decide (i ≠ d))
          = ((List.range n).filter (fun i => decide (i ∉ ds))).erase d := by
        rw [List.Nodup.erase_eq_filter hL]
        apply List.filter_congr
        intro x _
        by_cases h : x = d <;> simp [h]
      rw [hrw, herase, List.length_erase_of_mem hdL,
        ih (List.Nodup.of_cons hnd) (fun i hi => hlt i (List.mem_cons_of_mem d hi))]
      simp only [List.length_cons]
      omega

lemma dropAll_scenario (rt n : Nat) (ds : List Nat) (hnd : ds.Nodup)
    (hlt : ∀ i ∈ ds, i < n) :
    dropAll (scenario rt n) ds = afterDrops rt n ds := by
  rw [scenario_eq]
  have h := dropAll_afterDrops rt n [] ds hnd hlt (by simp)
  simpa using h

lemma cleanup_afterDrops_records (rt n : Nat) (ds : List Nat) (hne : ds ≠ []) :
    (afterDrops rt n ds).cleanup.1.records
      = ((List.range n).filter (fun i => decide (i ∉ ds))).map
          (fun i => ({ value := some i, refsId := i } : Record Nat)) := by
  have hdirty : (afterDrops rt n ds).dirty = true := by
    show (!ds.isEmpty) = true
    cases ds with
    | nil => exact absurd rfl hne
    | cons d ds => rfl
  unfold GlobalHolder.cleanup
  rw [hdirty]
  show ((afterDrops rt n ds).records.filter _) = _
  show (((List.range n).map fun i => ({ value := some i, refsId := i } : Record Nat)).filter
      (fun r => decide (0 < (afterDrops rt n ds).strong r.refsId))) = _
  rw [List.filter_map]
  congr 1
  apply List.filter_congr
  intro i hi
  have hin : i < n := List.mem_range.1 hi
  show decide (0 < (afterDrops rt n ds).strong i) = _
  show decide (0 < if i < n ∧ i ∉ ds then 1 else 0) = decide (i ∉ ds)
  by_cases h : i ∈ ds <;> simp [h, hin]

lemma cleanup_afterDrops_frees (rt n : Nat) (ds : List Nat) (hne : ds ≠ []) :
    (afterDrops rt n ds).cleanup.2
      = (List.range n).filter (fun i => decide (i ∈ ds)) := by
  have hdirty : (afterDrops rt n ds).dirty = true := by
    show (!ds.isEmpty) = true
    cases ds with
    | nil => exact absurd rfl hne
    | cons d ds => rfl
  unfold GlobalHolder.cleanup
  rw [hdirty]
  show ((((List.range n).map fun i => ({ value := some i, refsId := i } : Record Nat)).filter
      (fun r => decide ((afterDrops rt n ds).strong r.refsId = 0))).filterMap
        (fun r => r.value)) = _
  rw [List.filter_map, List.filterMap_map]
  have h1 : ((List.range n).filter
      ((fun r => decide ((afterDrops rt n ds).strong r.refsId = 0)) ∘
        (fun i => ({ value := some i, refsId := i } : Record Nat))))
      = (List.range n).filter (fun i => decide (i ∈ ds)) := by
    apply List.filter_congr
    intro i hi
    have hin : i < n := List.mem_range.1 hi
    show decide ((if i < n ∧ i ∉ ds then 1 else 0) = 0) = decide (i ∈ ds)
    by_cases h : i ∈ ds <;> simp [h, hin]
  rw [h1]
  show List.filterMap (fun i => some i) _ = _
  simp

/-- C1: after `n` promotions (each returning a distinct, uncloned handle)
and dropping the `ds.length` distinct handles listed in `ds`, one
`cleanup()` leaves exactly `n - ds.length` records in the holder, and the
release function has been invoked exactly once for each dropped handle's
record and never for a record whose handle is still alive. -/
theorem C1_count_invariant (rt n : Nat) (ds : List Nat) (hnd : ds.Nodup)
    (hlt : ∀ i ∈ ds, i < n) :
    ((dropAll (scenario rt n) ds).cleanup.1.records.length = n - ds.length)
    ∧ (∀ i ∈ ds, (dropAll (scenario rt n) ds).cleanup.2.count i = 1)
    ∧ (∀ i, i ∉ ds → (dropAll (scenario rt n) ds).cleanup.2.count i = 0) := by
  rw [dropAll_scenario rt n ds hnd hlt]
  rcases eq_or_ne ds [] with rfl | hne
  · refine ⟨?_, by simp, ?_⟩
    · show ((afterDrops rt n []).cleanup.1.records.length) = n - 0
      have hdirty : (afterDrops rt n []).dirty = false := rfl
      unfold GlobalHolder.cleanup
      rw [hdirty]
      show ((afterDrops rt n []).records.length) = n - 0
      show (((List.range n).map fun i =>
        ({ value := some i, refsId := i } : Record Nat)).length) = n - 0
      simp
    · intro i _
      have hdirty : (afterDrops rt n []).dirty = false := rfl
      unfold GlobalHolder.cleanup
      rw [hdirty]
      rfl
  · refine ⟨?_, ?_, ?_⟩
    · rw [cleanup_afterDrops_records rt n ds hne]
      rw [List.length_map]
      exact length_filter_not_mem n ds hnd hlt
    · intro i hi
      rw [cleanup_afterDrops_frees rt n ds hne]
      rw [List.count_filter (by simpa using hi)]
      exact List.count_eq_one_of_mem (List.nodup_range n)
        (List.mem_range.2 (hlt i hi))
    · intro i hi
      rw [cleanup_afterDrops_frees rt n ds hne]
      apply List.count_eq_zero_of_not_mem
      intro hmem
      exact hi (by simpa using (List.mem_filter.1 hmem).2)

/-- C1 witness: three promotions, one drop, one cleanup: two records
remain, value 1 released exactly once, values 0 and 2 not released. -/
theorem C1_count_invariant_witness :
    ((dropAll (scenario 0 3) [1]).cleanup.1.records.length = 3 - [1].length)
    ∧ (∀ i ∈ [1], (dropAll (scenario 0 3) [1]).cleanup.2.count i = 1)
    ∧ (∀ i, i ∉ [1] → (dropAll (scenario 0 3) [1]).cleanup.2.count i = 0) :=
  C1_count_invariant 0 3 [1] (by decide) (by decide)

/-- C2: promoting `n` values (handles dropped or not, never swept), then
dropping the Runtime, produces exactly `n` release-function invocations,
all of them before the single `JS_FreeRuntime` event that ends the
teardown trace. -/
theorem C2_teardown_completeness (rt n : Nat) (ds : List Nat) :
    ∃ l, runtimeDropEvents (GlobalHolder.new rt) (dropAll (scenario rt n) ds)
          (GlobalHolder.new rt)
        = l ++ [TeardownEvent.freeRuntime]
      ∧ (∀ e ∈ l, e.isRelease = true) ∧ l.length = n := by
  have hrec : (dropAll (scenario rt n) ds).records
      = (List.range n).map (fun i => { value := some i, refsId := i }) := by
    rw [dropAll_records, scenario_eq]
    rfl
  refine ⟨(List.range n).map (fun i => TeardownEvent.release i), ?_, ?_, ?_⟩
  · unfold runtimeDropEvents GlobalHolder.dropFrees GlobalHolder.new
    rw [hrec]
    simp only [List.filterMap_map, List.filterMap_nil, List.map_nil, List.nil_append,
      List.append_nil]
    show List.map TeardownEvent.release (List.filterMap some (List.range n))
          ++ [TeardownEvent.freeRuntime]
        = List.map (fun i => TeardownEvent.release i) (List.range n)
          ++ [TeardownEvent.freeRuntime]
    rw [List.filterMap_some]
  · intro e he
    rcases List.mem_map.1 he with ⟨i, _, rfl⟩
    rfl
  · simp

/-- C6: dropping a `Global` handle performs no engine release call and
leaves the holder's record collection, runtime identity and token supply
unchanged; the only state it may change is the shared dirty flag, and then
only by setting it to `true` (the single relaxed store in `Drop for Ref`;
atomicity itself is outside this sequential embedding). -/
theorem C6_drop_frame_effect (s : GlobalHolder V) (id : Nat) :
    (s.dropGlobal id).2 = []
    ∧ (s.dropGlobal id).1.records = s.records
    ∧ (s.dropGlobal id).1.runtime = s.runtime
    ∧ (s.dropGlobal id).1.next = s.next
    ∧ ((s.dropGlobal id).1.dirty = s.dirty ∨ (s.dropGlobal id).1.dirty = true) := by
  unfold GlobalHolder.dropGlobal
  split
  · exact ⟨rfl, rfl, rfl, rfl, Or.inr rfl⟩
  · exact ⟨rfl, rfl, rfl, rfl, Or.inl rfl⟩

/-- C7: `cleanup()` is idempotent: after one call the dirty flag reads
`false`, and a second call with no intervening drops returns the state
unchanged and performs zero release calls. -/
theorem C7_cleanup_idempotent (s : GlobalHolder V) :
    s.cleanup.1.dirty = false
    ∧ s.cleanup.1.cleanup.1 = s.cleanup.1
    ∧ s.cleanup.1.cleanup.2 = [] := by
  have h : s.cleanup.1.dirty = false := by
    unfold GlobalHolder.cleanup
    split <;> rfl
  have key : ∀ t : GlobalHolder V, t.dirty = false →
      t.cleanup.1 = t ∧ t.cleanup.2 = [] := by
    intro t ht
    cases t with
    | mk rt d recs st nx =>
        have hd : d = false := ht
        subst hd
        exact ⟨rfl, rfl⟩
  exact ⟨h, (key _ h).1, (key _ h).2⟩

/-- C9: cloning a `Global` handle leaves the holder's records untouched,
and keeps the record's token strongly held; `cleanup()` retains every
record whose token still has a strong holder, and every value it releases
comes from a record with no surviving handle clone. -/
theorem C9_clone_retention (s : GlobalHolder V) (id : Nat) (r : Record V)
    (hr : r ∈ s.records) (hl : 0 < s.strong r.refsId) :
    (s.cloneGlobal id).records = s.records
    ∧ 0 < (s.cloneGlobal r.refsId).strong r.refsId
    ∧ r ∈ s.cleanup.1.records
    ∧ ∀ w ∈ s.cleanup.2, ∃ q ∈ s.records, q.value = some w ∧ s.strong q.refsId = 0 := by
  refine ⟨rfl, ?_, ?_, ?_⟩
  · show 0 < (if r.refsId = r.refsId then s.strong r.refsId + 1 else s.strong r.refsId)
    rw [if_pos rfl]
    omega
  · unfold GlobalHolder.cleanup
    split
    · show r ∈ s.records.filter _
      rw [List.mem_filter]
      exact ⟨hr, by simpa using hl⟩
    · exact hr
  · intro w hw
    unfold GlobalHolder.cleanup at hw
    split at hw
    · rcases List.mem_filterMap.1 hw with ⟨q, hq, hval⟩
      rcases List.mem_filter.1 hq with ⟨hq1, hq2⟩
      exact ⟨q, hq1, hval, by simpa using hq2⟩
    · exact absurd hw (List.not_mem_nil w)

/-- C9 witness: the single-record holder of `scenario 0 1`, whose record
`⟨some 0, 0⟩` still has a live handle. -/
theorem C9_clone_retention_witness :
    ((scenario 0 1).cloneGlobal 0).records = (scenario 0 1).records
    ∧ 0 < ((scenario 0 1).cloneGlobal 0).strong 0
    ∧ ({ value := some 0, refsId := 0 } : Record Nat) ∈ (scenario 0 1).cleanup.1.records
    ∧ ∀ w ∈ (scenario 0 1).cleanup.2, ∃ q ∈ (scenario 0 1).records,
        q.value = some w ∧ (scenario 0 1).strong q.refsId = 0 :=
  C9_clone_retention (scenario 0 1) 0 { value := some 0, refsId := 0 }
    (by decide) (by decide)

/-- Rebuilding any `Value`'s borrowed raw form with `from_raw` succeeds:
`as_raw` never produces the exception tag or an unknown tag. -/
lemma fromRaw_asRaw (rt : Nat) (v : Value) :
    ∃ w, Value.fromRaw rt v.asRaw = .ok (.ok w) := by
  cases v <;> exact ⟨_, rfl⟩

lemma toLocal_mismatch (g : Global JSValue) (rt : Nat) (h : g.runtime ≠ rt) :
    GlobalValue.toLocal g rt = .ok (.error .mk) := by
  unfold GlobalValue.toLocal Global.get
  rw [if_neg h]

lemma toLocal_match_asRaw (g : Global JSValue) (rt : Nat) (h : g.runtime = rt)
    (v : Value) (hv : g.value = v.asRaw) :
    ∃ w, GlobalValue.toLocal g rt = .ok (.ok w) := by
  obtain ⟨w, hw⟩ := fromRaw_asRaw rt v
  refine ⟨w, ?_⟩
  have hget : g.get rt = some v.asRaw := by
    unfold Global.get
    rw [if_pos h, hv]
  unfold GlobalValue.toLocal
  rw [hget]
  simp only [dupValueRT, hw]

/-- C4: a handle promoted through `new_global_value` under runtime `A`
resolves with `to_local` to `Err(InvalidRuntime)` against every runtime of
a different identity, and resolves to a value against `A` itself. -/
theorem C4_cross_runtime_resolution (rtA rtB : Nat) (hne : rtB ≠ rtA)
    (refs : GlobalHolder JSValue) (hrt : refs.runtime = rtA) (v : Value)
    (s' : RuntimeStore JSValue) (g : Global JSValue)
    (hpromote : Runtime.newGlobalValue rtA (.running refs) v = .ok (.ok (s', g))) :
    GlobalValue.toLocal g rtB = .ok (.error .mk)
    ∧ ∃ w, GlobalValue.toLocal g rtA = .ok (.ok w) := by
  unfold Runtime.newGlobalValue at hpromote
  split at hpromote
  · exact absurd hpromote (by simp)
  · simp only [PanicOr.ok.injEq, Except.ok.injEq, Prod.mk.injEq] at hpromote
    have hg : g = (⟨refs.next, refs.runtime, dupValueRT rtA v.asRaw⟩ : Global JSValue) :=
      hpromote.2.symm
    subst hg
    constructor
    · exact toLocal_mismatch _ rtB (by simpa [hrt] using Ne.symm hne)
    · exact toLocal_match_asRaw _ rtA (by simpa using hrt) v rfl

/-- C4 witness: `null` promoted under runtime 0 fails against runtime 1
and resolves against runtime 0. -/
theorem C4_cross_runtime_resolution_witness :
    GlobalValue.toLocal (⟨0, 0, JS_NULL⟩ : Global JSValue) 1 = .ok (.error .mk)
    ∧ ∃ w, GlobalValue.toLocal (⟨0, 0, JS_NULL⟩ : Global JSValue) 0 = .ok (.ok w) :=
  C4_cross_runtime_resolution 0 1 (by decide) (GlobalHolder.new 0) rfl Value.null
    (.running ((GlobalHolder.new 0).push (dupValueRT 0 Value.null.asRaw)).1)
    (⟨0, 0, JS_NULL⟩ : Global JSValue) rfl

/-- C5: with the store `Running`, `new_global_value` returns
`Err(InvalidRuntime)` precisely when the value carries an owning-runtime
identity different from this runtime; a value owned by this runtime, and
every plain value (which carries no owning identity), registers
successfully. -/
theorem C5_new_global_value_iff (selfRt : Nat) (refs : GlobalHolder JSValue)
    (v : Value) :
    ((Runtime.newGlobalValue selfRt (.running refs) v = .ok (.error .mk))
      ↔ ∃ rt, v.getRuntime = some rt ∧ rt ≠ selfRt)
    ∧ (v.getRuntime = none ∨ v.getRuntime = some selfRt →
        ∃ s' g, Runtime.newGlobalValue selfRt (.running refs) v
          = .ok (.ok (s', g))) := by
  rcases hv : v.getRuntime with _ | rt
  · constructor
    · simp [Runtime.newGlobalValue, hv]
    · intro _
      refine ⟨.running (refs.push (dupValueRT selfRt v.asRaw)).1,
        (refs.push (dupValueRT selfRt v.asRaw)).2, ?_⟩
      simp [Runtime.newGlobalValue, hv]
  · by_cases hrt : rt = selfRt
    · subst hrt
      constructor
      · simp [Runtime.newGlobalValue, hv]
      · intro _
        refine ⟨.running (refs.push (dupValueRT rt v.asRaw)).1,
          (refs.push (dupValueRT rt v.asRaw)).2, ?_⟩
        simp [Runtime.newGlobalValue, hv]
    · constructor
      · simp [Runtime.newGlobalValue, hv, hrt]
      · intro h
        rcases h with h | h
        · exact absurd h (by simp)
        · injection h with h
          exact absurd h hrt

/-- C5 witness: a plain value registers against any runtime. -/
theorem C5_new_global_value_iff_witness :
    ∃ s' g, Runtime.newGlobalValue 0 (.running (GlobalHolder.new 0)) Value.null
      = .ok (.ok (s', g)) :=
  (C5_new_global_value_iff 0 (GlobalHolder.new 0) Value.null).2 (Or.inl rfl)

/-- C8: promotion of a value, context, or atom that passes the identity
check but meets a `Destroying` store aborts fatally
(`panic!("runtime destroying")`), never the recoverable
`Err(InvalidRuntime)` — `.fatal` is a distinct outcome from any `.ok`. -/
theorem C8_register_while_destroying (selfRt ctxPtr atomRaw : Nat) (v : Value)
    (hv : v.getRuntime = none ∨ v.getRuntime = some selfRt) :
    Runtime.newGlobalValue selfRt .destroying v = .fatal
    ∧ Runtime.newGlobalContext selfRt .destroying selfRt ctxPtr = .fatal
    ∧ Context.newGlobalAtom selfRt .destroying selfRt atomRaw = .fatal := by
  refine ⟨?_, ?_, ?_⟩
  · rcases hv with hv | hv <;> simp [Runtime.newGlobalValue, hv]
  · simp [Runtime.newGlobalContext]
  · simp [Context.newGlobalAtom]

/-- C8 witness: concrete registrations against a destroying store. -/
theorem C8_register_while_destroying_witness :
    Runtime.newGlobalValue 0 .destroying Value.null = .fatal
    ∧ Runtime.newGlobalContext 0 .destroying 0 7 = .fatal
    ∧ Context.newGlobalAtom 0 .destroying 0 7 = .fatal :=
  C8_register_while_destroying 0 7 7 Value.null (Or.inl rfl)

/-- C3 fails on the code: `into_raw` lets the `RefValue` of the `BigInt`
and `Symbol` arms drop (they read `v.ptr` without the `detach_ptr` /
`mem::forget` used by the `String`, `Module`, `FunctionByteCode` and
`Object` arms), so `JS_FreeValueRT` runs on the very reference being
returned to the caller.  Evaluated at concrete inputs: the release-call
lists that `into_raw` emits. -/
theorem C3_intoRaw_bigint_symbol_release :
    (Value.intoRaw (.bigInt 7 42)).2 = [{ rt := 7, tag := JS_TAG_BIG_INT, ptr := 42 }]
    ∧ (Value.intoRaw (.symbol 7 42)).2 = [{ rt := 7, tag := JS_TAG_SYMBOL, ptr := 42 }]
    ∧ (Value.intoRaw (.string 7 42)).2 = []
    ∧ (Value.intoRaw (.module 7 42)).2 = []
    ∧ (Value.intoRaw (.functionByteCode 7 42)).2 = []
    ∧ (Value.intoRaw (.object 7 42)).2 = []
    ∧ (Value.intoRaw (.bigInt 7 42)).1 = mkPtr JS_TAG_BIG_INT 42 :=
  ⟨rfl, rfl, rfl, rfl, rfl, rfl, rfl⟩

lemma fromRaw_error_iff (rt : Nat) (v : JSValue) :
    Value.fromRaw rt v = .ok (.error .mk) ↔ v.tag = JS_TAG_EXCEPTION := by
  by_cases h1 : v.tag = JS_TAG_BIG_INT
  · refine iff_of_false ?_ (by rw [h1]; decide)
    have hval : Value.fromRaw rt v = .ok (.ok (.bigInt rt v.ptr)) := by
      unfold Value.fromRaw
      rw [h1]
      rfl
    rw [hval]
    simp
  by_cases h2 : v.tag = JS_TAG_SYMBOL
  · refine iff_of_false ?_ (by rw [h2]; decide)
    have hval : Value.fromRaw rt v = .ok (.ok (.symbol rt v.ptr)) := by
      unfold Value.fromRaw
      rw [h2]
      rfl
    rw [hval]
    simp
  by_cases h3 : v.tag = JS_TAG_STRING
  · refine iff_of_false ?_ (by rw [h3]; decide)
    have hval : Value.fromRaw rt v = .ok (.ok (.string rt v.ptr)) := by
      unfold Value.fromRaw
      rw [h3]
      rfl
    rw [hval]
    simp
  by_cases h4 : v.tag = JS_TAG_MODULE
  · refine iff_of_false ?_ (by rw [h4]; decide)
    have hval : Value.fromRaw rt v = .ok (.ok (.module rt v.ptr)) := by
      unfold Value.fromRaw
      rw [h4]
      rfl
    rw [hval]
    simp
  by_cases h5 : v.tag = JS_TAG_FUNCTION_BYTECODE
  · refine iff_of_false ?_ (by rw [h5]; decide)
    have hval : Value.fromRaw rt v = .ok (.ok (.functionByteCode rt v.ptr)) := by
      unfold Value.fromRaw
      rw [h5]
      rfl
    rw [hval]
    simp
  by_cases h6 : v.tag = JS_TAG_OBJECT
  · refine iff_of_false ?_ (by rw [h6]; decide)
    have hval : Value.fromRaw rt v = .ok (.ok (.object rt v.ptr)) := by
      unfold Value.fromRaw
      rw [h6]
      rfl
    rw [hval]
    simp
  by_cases h7 : v.tag = JS_TAG_INT
  · refine iff_of_false ?_ (by rw [h7]; decide)
    have hval : Value.fromRaw rt v = .ok (.ok (.int32 v.int32)) := by
      unfold Value.fromRaw
      rw [h7]
      rfl
    rw [hval]
    simp
  by_cases h8 : v.tag = JS_TAG_BOOL
  · refine iff_of_false ?_ (by rw [h8]; decide)
    have hval : Value.fromRaw rt v = .ok (.ok (.bool (v.int32 != 0))) := by
      unfold Value.fromRaw
      rw [h8]
      rfl
    rw [hval]
    simp
  by_cases h9 : v.tag = JS_TAG_NULL
  · refine iff_of_false ?_ (by rw [h9]; decide)
    have hval : Value.fromRaw rt v = .ok (.ok .null) := by
      unfold Value.fromRaw
      rw [h9]
      rfl
    rw [hval]
    simp
  by_cases h10 : v.tag = JS_TAG_UNDEFINED
  · refine iff_of_false ?_ (by rw [h10]; decide)
    have hval : Value.fromRaw rt v = .ok (.ok .undefined) := by
      unfold Value.fromRaw
      rw [h10]
      rfl
    rw [hval]
    simp
  by_cases h11 : v.tag = JS_TAG_UNINITIALIZED
  · refine iff_of_false ?_ (by rw [h11]; decide)
    have hval : Value.fromRaw rt v = .ok (.ok .uninitialized) := by
      unfold Value.fromRaw
      rw [h11]
      rfl
    rw [hval]
    simp
  by_cases h12 : v.tag = JS_TAG_CATCH_OFFSET
  · refine iff_of_false ?_ (by rw [h12]; decide)
    have hval : Value.fromRaw rt v = .ok (.ok (.catchOffset v.int32)) := by
      unfold Value.fromRaw
      rw [h12]
      rfl
    rw [hval]
    simp
  by_cases h13 : v.tag = JS_TAG_FLOAT64
  · refine iff_of_false ?_ (by rw [h13]; decide)
    have hval : Value.fromRaw rt v = .ok (.ok (.float64 v.float64)) := by
      unfold Value.fromRaw
      rw [h13]
      rfl
    rw [hval]
    simp
  by_cases h14 : v.tag = JS_TAG_EXCEPTION
  · refine iff_of_true ?_ h14
    unfold Value.fromRaw
    rw [if_neg h1, if_neg h2, if_neg h3, if_neg h4, if_neg h5, if_neg h6, if_neg h7,
      if_neg h8, if_neg h9, if_neg h10, if_neg h11, if_neg h12, if_neg h13, if_pos h14]
  · refine iff_of_false ?_ h14
    have hval : Value.fromRaw rt v = .fatal := by
      unfold Value.fromRaw
      rw [if_neg h1, if_neg h2, if_neg h3, if_neg h4, if_neg h5, if_neg h6, if_neg h7,
        if_neg h8, if_neg h9, if_neg h10, if_neg h11, if_neg h12, if_neg h13,
        if_neg h14]
    rw [hval]
    simp

/-- C10: `from_raw` reports `Err(Exception)` exactly on the exception tag;
each of the thirteen other recognised tags yields `Ok` with the variant
determined by that tag (pointer handed over for the six reference-counted
tags, payload copied for the plain tags), and any unrecognised tag is a
`panic!`. -/
theorem C10_fromRaw_classification (rt : Nat) (v : JSValue) :
    ((Value.fromRaw rt v = .ok (.error .mk)) ↔ v.tag = JS_TAG_EXCEPTION)
    ∧ (v.tag = JS_TAG_BIG_INT → Value.fromRaw rt v = .ok (.ok (.bigInt rt v.ptr)))
    ∧ (v.tag = JS_TAG_SYMBOL → Value.fromRaw rt v = .ok (.ok (.symbol rt v.ptr)))
    ∧ (v.tag = JS_TAG_STRING → Value.fromRaw rt v = .ok (.ok (.string rt v.ptr)))
    ∧ (v.tag = JS_TAG_MODULE → Value.fromRaw rt v = .ok (.ok (.module rt v.ptr)))
    ∧ (v.tag = JS_TAG_FUNCTION_BYTECODE →
        Value.fromRaw rt v = .ok (.ok (.functionByteCode rt v.ptr)))
    ∧ (v.tag = JS_TAG_OBJECT → Value.fromRaw rt v = .ok (.ok (.object rt v.ptr)))
    ∧ (v.tag = JS_TAG_INT → Value.fromRaw rt v = .ok (.ok (.int32 v.int32)))
    ∧ (v.tag = JS_TAG_BOOL → Value.fromRaw rt v = .ok (.ok (.bool (v.int32 != 0))))
    ∧ (v.tag = JS_TAG_NULL → Value.fromRaw rt v = .ok (.ok .null))
    ∧ (v.tag = JS_TAG_UNDEFINED → Value.fromRaw rt v = .ok (.ok .undefined))
    ∧ (v.tag = JS_TAG_UNINITIALIZED → Value.fromRaw rt v = .ok (.ok .uninitialized))
    ∧ (v.tag = JS_TAG_CATCH_OFFSET →
        Value.fromRaw rt v = .ok (.ok (.catchOffset v.int32)))
    ∧ (v.tag = JS_TAG_FLOAT64 → Value.fromRaw rt v = .ok (.ok (.float64 v.float64)))
    ∧ (v.tag ∉ recognizedTags → Value.fromRaw rt v = .fatal) := by
  refine ⟨fromRaw_error_iff rt v, ?_, ?_, ?_, ?_, ?_, ?_, ?_, ?_, ?_, ?_, ?_, ?_, ?_, ?_⟩
    <;> intro h
  · unfold Value.fromRaw
    rw [h]
    rfl
  · unfold Value.fromRaw
    rw [h]
    rfl
  · unfold Value.fromRaw
    rw [h]
    rfl
  · unfold Value.fromRaw
    rw [h]
    rfl
  · unfold Value.fromRaw
    rw [h]
    rfl
  · unfold Value.fromRaw
    rw [h]
    rfl
  · unfold Value.fromRaw
    rw [h]
    rfl
  · unfold Value.fromRaw
    rw [h]
    rfl
  · unfold Value.fromRaw
    rw [h]
    rfl
  · unfold Value.fromRaw
    rw [h]
    rfl
  · unfold Value.fromRaw
    rw [h]
    rfl
  · unfold Value.fromRaw
    rw [h]
    rfl
  · unfold Value.fromRaw
    rw [h]
    rfl
  · simp only [recognizedTags, List.mem_cons, List.not_mem_nil, or_false, not_or] at h
    obtain ⟨n1, n2, n3, n4, n5, n6, n7, n8, n9, n10, n11, n12, n13, n14⟩ := h
    unfold Value.fromRaw
    rw [if_neg n1, if_neg n2, if_neg n3, if_neg n4, if_neg n5, if_neg n6, if_neg n7,
      if_neg n8, if_neg n9, if_neg n10, if_neg n11, if_neg n12, if_neg n14, if_neg n13]

/-- C10 witness: a big-int-tagged raw value and an exception-tagged raw
value classified at runtime 0. -/
theorem C10_fromRaw_classification_witness :
    Value.fromRaw 0 (mkPtr JS_TAG_BIG_INT 5) = .ok (.ok (.bigInt 0 5))
    ∧ Value.fromRaw 0 (mkVal JS_TAG_EXCEPTION 0) = .ok (.error .mk) :=
  ⟨(C10_fromRaw_classification 0 (mkPtr JS_TAG_BIG_INT 5)).2.1 rfl,
   (C10_fromRaw_classification 0 (mkVal JS_TAG_EXCEPTION 0)).1.mpr rfl⟩

end QuickjsModel
